import Mathlib

/-!
Shallow embedding of `src/app.py` (github-to-markdown): URL parsing,
default-branch resolution, tree listing, per-file content fetching and
decoding, and markdown document assembly, together with theorems checking
the natural-language specification against this embedding.

Strings are modelled by Lean `String`; character-level processing is done
on `List Char` (the underlying data of a `String`).  Network calls are
modelled by a `World` record holding the responses every outbound call
would receive, so that the pure functions below are the request pipeline
evaluated against that world.
-/

namespace App

/-! ## URL parser (`parse_github_url`, src/app.py lines 22-36)

The source matches the URL with `re.match` against two patterns in order:

  1. `https?://github\.com/([^/]+)/([^/]+)/?.*`
  2. `git@github\.com:([^/]+)/([^/]+)\.git`

`re.match` anchors at the start only.  For pattern 1, `([^/]+)` is a
greedy run of non-slash characters and the trailing `/?.*` always matches,
so a match is: the literal scheme-and-host part, a nonempty slash-free
owner, a `/`, a nonempty slash-free repo segment, then anything.  For
pattern 2, the second group is the longest nonempty slash-free run that is
immediately followed by the literal `.git` (greedy with backtracking).
If the matched repo name ends with `.git`, the source strips that suffix.
-/

/-- Strip a literal character sequence from the front of a list, or fail. -/
def dropLit : List Char → List Char → Option (List Char)
  | [], s => some s
  | _ :: _, [] => none
  | p :: ps, c :: cs => if p = c then dropLit ps cs else none

/-- The characters of `https://github.com/`. -/
def httpsHost : List Char :=
  ['h', 't', 't', 'p', 's', ':', '/', '/', 'g', 'i', 't', 'h', 'u', 'b',
   '.', 'c', 'o', 'm', '/']

/-- The characters of `http://github.com/`. -/
def httpHost : List Char :=
  ['h', 't', 't', 'p', ':', '/', '/', 'g', 'i', 't', 'h', 'u', 'b',
   '.', 'c', 'o', 'm', '/']

/-- The characters of `git@github.com:`. -/
def sshHost : List Char :=
  ['g', 'i', 't', '@', 'g', 'i', 't', 'h', 'u', 'b', '.', 'c', 'o', 'm',
   ':']

/-- The characters of `.git`. -/
def gitSuffix : List Char := ['.', 'g', 'i', 't']

/-- Matching with `re.match` against pattern 1 (`https?://github\.com/([^/]+)/([^/]+)/?.*`):
after the scheme-and-host literal (with the `s` optional), a nonempty
slash-free owner group, a slash, and a nonempty slash-free repo group; the
trailing `/?.*` matches any remainder. -/
def matchHttps (s : List Char) : Option (List Char × List Char) :=
  match (dropLit httpsHost s).orElse (fun _ => dropLit httpHost s) with
  | none => none
  | some rest =>
    let owner := rest.takeWhile (fun c => c ≠ '/')
    if owner = [] then none
    else
      match rest.dropWhile (fun c => c ≠ '/') with
      | [] => none
      | _ :: rest2 =>
        let repo := rest2.takeWhile (fun c => c ≠ '/')
        if repo = [] then none else some (owner, repo)

/-- Matching with `re.match` against pattern 2 (`git@github\.com:([^/]+)/([^/]+)\.git`):
after the literal `git@github.com:`, a nonempty slash-free owner group, a
slash, then the longest nonempty slash-free run followed by the literal
`.git` (the greedy group with backtracking). -/
def matchSsh (s : List Char) : Option (List Char × List Char) :=
  match dropLit sshHost s with
  | none => none
  | some rest =>
    let owner := rest.takeWhile (fun c => c ≠ '/')
    if owner = [] then none
    else
      match rest.dropWhile (fun c => c ≠ '/') with
      | [] => none
      | _ :: rest2 =>
        let seg := rest2.takeWhile (fun c => c ≠ '/')
        match (List.range (seg.length + 1)).reverse.find?
            (fun k => decide (1 ≤ k) && gitSuffix.isPrefixOf (rest2.drop k)) with
        | none => none
        | some k => some (owner, rest2.take k)

/-- Embedding of `parse_github_url` (src/app.py lines 22-36): try the HTTPS pattern, then
the SSH pattern; on a match, strip a trailing `.git` from the repo group.
`none` models the source returning `(None, None)`. -/
def parse_github_url (url : String) : Option (String × String) :=
  match (matchHttps url.data).orElse (fun _ => matchSsh url.data) with
  | none => none
  | some (owner, repo) =>
    let repo' := if gitSuffix.isSuffixOf repo then repo.take (repo.length - 4) else repo
    some (String.mk owner, String.mk repo')

/-! ## Blank-line filtering (src/app.py lines 151-154)

The source runs `content.splitlines()`, keeps the lines `line` with
`line.strip()` truthy, and joins them with `'\n'`.  `str.splitlines`
splits at every Unicode line boundary (with `\r\n` as one boundary) and
produces no trailing empty line; `str.strip()` trims Python whitespace. -/

/-- The line-boundary characters of Python `str.splitlines`. -/
def isLineBreak (c : Char) : Bool :=
  c = '\n' || c = '\r' || c = Char.ofNat 0x0b || c = Char.ofNat 0x0c ||
  c = Char.ofNat 0x1c || c = Char.ofNat 0x1d || c = Char.ofNat 0x1e ||
  c = Char.ofNat 0x85 || c = Char.ofNat 0x2028 || c = Char.ofNat 0x2029

/-- The whitespace characters of Python `str.strip()` (`str.isspace`). -/
def isPySpace (c : Char) : Bool :=
  c = ' ' || c = '\t' || c = '\n' || c = '\r' ||
  c = Char.ofNat 0x0b || c = Char.ofNat 0x0c ||
  c = Char.ofNat 0x1c || c = Char.ofNat 0x1d || c = Char.ofNat 0x1e ||
  c = Char.ofNat 0x1f || c = Char.ofNat 0x85 || c = Char.ofNat 0xa0 ||
  c = Char.ofNat 0x1680 ||
  (Char.ofNat 0x2000 ≤ c && c ≤ Char.ofNat 0x200a) ||
  c = Char.ofNat 0x2028 || c = Char.ofNat 0x2029 ||
  c = Char.ofNat 0x202f || c = Char.ofNat 0x205f || c = Char.ofNat 0x3000

/-- Python `str.splitlines` on the character list of a string: split at
every line boundary (with `\r\n` as a single boundary), producing no
trailing empty line. -/
def pySplitlines : List Char → List (List Char)
  | [] => []
  | c :: rest =>
    if isLineBreak c then
      if c = '\r' then
        match rest with
        | [] => [[]]
        | c2 :: r2 =>
          if c2 = '\n' then [] :: pySplitlines r2
          else [] :: pySplitlines (c2 :: r2)
      else [] :: pySplitlines rest
    else
      match pySplitlines rest with
      | [] => [[c]]
      | l :: ls => (c :: l) :: ls

/-- Python `str.strip()` on a character list. -/
def pyStrip (s : List Char) : List Char :=
  ((s.dropWhile isPySpace).reverse.dropWhile isPySpace).reverse

/-- Join character-list lines with `'\n'` (Python `'\n'.join`). -/
def joinNL : List (List Char) → List Char
  | [] => []
  | l :: ls =>
    match ls with
    | [] => l
    | _ :: _ => l ++ '\n' :: joinNL ls

/-- The blank-line filter of `convert_repo` (src/app.py lines 151-154):
split into lines, keep the lines whose `strip()` is nonempty, join with
newline. -/
def filterBlankLines (content : String) : String :=
  String.mk (joinNL ((pySplitlines content.data).filter (fun l => pyStrip l ≠ [])))

/-! ## Strict UTF-8 decoding

`get_file_content` runs `content_bytes.decode('utf-8')`, Python's strict
UTF-8 decoder: it rejects non-shortest forms, surrogate code points and
code points above `U+10FFFF`.  Bytes are modelled as `Nat` values below
256. -/

/-- Is `b` a UTF-8 continuation byte (`0x80..0xBF`)? -/
def isCont (b : Nat) : Bool := 0x80 ≤ b && b < 0xC0

/-- Strict UTF-8 decoding of a byte list, as Python `bytes.decode('utf-8')`:
`none` models a `UnicodeDecodeError`. -/
def utf8Decode : List Nat → Option (List Char)
  | [] => some []
  | b :: rest =>
    if b < 0x80 then
      (utf8Decode rest).map (fun cs => Char.ofNat b :: cs)
    else if b < 0xC2 then none
    else if b < 0xE0 then
      match rest with
      | b2 :: rest2 =>
        if isCont b2 then
          (utf8Decode rest2).map
            (fun cs => Char.ofNat ((b - 0xC0) * 0x40 + (b2 - 0x80)) :: cs)
        else none
      | [] => none
    else if b < 0xF0 then
      match rest with
      | b2 :: b3 :: rest3 =>
        if isCont b2 && isCont b3 &&
            (decide (b ≠ 0xE0) || decide (0xA0 ≤ b2)) &&
            (decide (b ≠ 0xED) || decide (b2 < 0xA0)) then
          (utf8Decode rest3).map
            (fun cs =>
              Char.ofNat ((b - 0xE0) * 0x1000 + (b2 - 0x80) * 0x40 + (b3 - 0x80)) :: cs)
        else none
      | _ => none
    else if b < 0xF5 then
      match rest with
      | b2 :: b3 :: b4 :: rest4 =>
        if isCont b2 && isCont b3 && isCont b4 &&
            (decide (b ≠ 0xF0) || decide (0x90 ≤ b2)) &&
            (decide (b ≠ 0xF4) || decide (b2 < 0x90)) then
          (utf8Decode rest4).map
            (fun cs =>
              Char.ofNat ((b - 0xF0) * 0x40000 + (b2 - 0x80) * 0x1000 +
                (b3 - 0x80) * 0x40 + (b4 - 0x80)) :: cs)
        else none
      | _ => none
    else none

/-! ## The modelled world of API responses

`convert_repo` makes three kinds of outbound calls.  A `World` records
what each call would return; a failed `requests` call (transport error or
non-2xx status raised by `raise_for_status`) is `none` / `.err`. -/

/-- The JSON body of the repository-metadata endpoint: only the
`default_branch` field matters; `none` models an absent field. -/
structure Metadata where
  default_branch : Option String
deriving DecidableEq

/-- One node of the recursive tree listing. -/
structure TreeItem where
  type : String
  path : String
  url : String
deriving DecidableEq

/-- The JSON body of the tree-listing endpoint. -/
structure TreeResponse where
  truncated : Bool
  tree : List TreeItem
deriving DecidableEq

/-- The outcome of fetching one blob URL: a transport/processing error, or
a JSON body with its declared `encoding` and the base64-decoded content
bytes. -/
inductive BlobOutcome where
  | err : BlobOutcome
  | ok (encoding : String) (bytes : List Nat) : BlobOutcome
deriving DecidableEq

/-- The responses the remote API would give during one conversion. -/
structure World where
  metadata : Option Metadata
  treeResp : Option TreeResponse
  blobResp : String → BlobOutcome

/-- An entry of the file list built by `get_repo_files`. -/
structure FileEntry where
  path : String
  url : String
deriving DecidableEq

/-! ## The API-calling functions (src/app.py lines 38-100) -/

/-- Embedding of `get_default_branch` (src/app.py lines 38-47): on a successful
metadata call, `response.json().get('default_branch', 'main')` — the
field's value when present, `"main"` when absent; `None` (here `none`)
when the request raised. -/
def get_default_branch (metadata : Option Metadata) : Option String :=
  match metadata with
  | none => none
  | some m => some (m.default_branch.getD "main")

/-- Embedding of `get_repo_files` (src/app.py lines 49-73): on a successful tree call,
the `path` and `url` of every tree node of type `"blob"`, in listing
order; the `truncated` flag only triggers a log line and does not change
the returned list.  `None` (here `none`) when the request raised. -/
def get_repo_files (treeResp : Option TreeResponse) : Option (List FileEntry) :=
  match treeResp with
  | none => none
  | some data =>
    some ((data.tree.filter (fun item => item.type = "blob")).map
      (fun item => FileEntry.mk item.path item.url))

/-- Embedding of `get_file_content` (src/app.py lines 76-100): `None` on a failed
request, `None` when the declared encoding is not `"base64"`, `None` when
strict UTF-8 decoding of the base64-decoded bytes fails, and the decoded
text otherwise.  Every branch returns a value; nothing propagates. -/
def get_file_content (outcome : BlobOutcome) : Option String :=
  match outcome with
  | .err => none
  | .ok encoding bytes =>
    if encoding = "base64" then (utf8Decode bytes).map String.mk
    else none

/-! ## Document assembly (`convert_repo`, src/app.py lines 108-179)

The endpoint appends markdown pieces to a list and joins them with
`"\n".join`.  The loop body appends, for a fetched file, the heading, the
fence opener, the filtered body, the fence closer and the separator; for
a skipped file, the heading, the fixed skip notice and the separator. -/

/-- The result of a `/convert` request: the three error classes the
endpoint returns (HTTP 400, 404, 500) and the success payload together
with the processed/skipped tallies it logs. -/
inductive ConvertResult where
  | badRequest (msg : String) : ConvertResult
  | notFound (msg : String) : ConvertResult
  | serverError (msg : String) : ConvertResult
  | ok (markdown : String) (processed skipped : Nat) : ConvertResult
deriving DecidableEq

/-- Python `sep.join(pieces)` for string pieces. -/
def pyJoin (sep : String) : List String → String
  | [] => ""
  | p :: ps =>
    match ps with
    | [] => p
    | _ :: _ => p ++ sep ++ pyJoin sep ps

/-- The markdown pieces the loop appends for a file whose content was
fetched and filtered (src/app.py lines 157-164). -/
def textPieces (path body : String) : List String :=
  ["## `" ++ path ++ "`\n", "```", body, "```\n", "---\n"]

/-- The markdown pieces the loop appends for a skipped file
(src/app.py lines 169-171). -/
def skipPieces (path : String) : List String :=
  ["## `" ++ path ++ "`\n",
   "*Content skipped (binary, non-UTF8, or error fetching).*\n",
   "---\n"]

/-- The per-file loop of `convert_repo` (src/app.py lines 143-171): the
markdown pieces in file order and the processed and skipped counts. -/
def convertLoop (w : World) : List FileEntry → List String × Nat × Nat
  | [] => ([], 0, 0)
  | f :: fs =>
    let r := convertLoop w fs
    match get_file_content (w.blobResp f.url) with
    | some content =>
      (textPieces f.path (filterBlankLines content) ++ r.1, r.2.1 + 1, r.2.2)
    | none =>
      (skipPieces f.path ++ r.1, r.2.1, r.2.2 + 1)

/-- The title element prepended before the loop (src/app.py line 138). -/
def titlePiece (owner repo : String) : String :=
  "# Codebase for " ++ owner ++ "/" ++ repo ++ "\n\n"

/-- Embedding of `convert_repo` (src/app.py lines 108-179) for a request whose JSON
body carries the URL `url`, evaluated against the world `w`:
parse the URL (400 on failure or an empty captured group), resolve the
default branch (404 when the result is falsy), list the files (500 on a
failed call, 404 on an empty list), then run the per-file loop and join
the title and all pieces with newline. -/
def convert_repo (w : World) (url : String) : ConvertResult :=
  match parse_github_url url with
  | none => .badRequest "Invalid GitHub repository URL format."
  | some (owner, repo) =>
    if owner = "" ∨ repo = "" then
      .badRequest "Invalid GitHub repository URL format."
    else
      match get_default_branch w.metadata with
      | none =>
        .notFound ("Could not determine default branch for " ++ owner ++ "/"
          ++ repo ++ ". Repo might be private, non-existent, or API error occurred.")
      | some branch =>
        if branch = "" then
          .notFound ("Could not determine default branch for " ++ owner ++ "/"
            ++ repo ++ ". Repo might be private, non-existent, or API error occurred.")
        else
          match get_repo_files w.treeResp with
          | none =>
            .serverError ("Could not fetch file list for " ++ owner ++ "/"
              ++ repo ++ ". Check permissions or API rate limits.")
          | some files =>
            if files = [] then
              .notFound ("Repository " ++ owner ++ "/" ++ repo
                ++ " appears to be empty or no files found.")
            else
              let r := convertLoop w files
              .ok (pyJoin "\n" (titlePiece owner repo :: r.1)) r.2.1 r.2.2

/-! ## Section-level view of the assembled document

`convert_repo` joins a flat list of pieces with `"\n"`.  The following
definitions give the per-file section strings this produces, so that the
document can be stated as: title, then one rendered section per file
entry, in listing order. -/

/-- Concatenation of a list of strings (no separator). -/
def sJoin : List String → String
  | [] => ""
  | s :: ss => s ++ sJoin ss

/-- Each piece of the flat list, prefixed by the joining newline. -/
def nlPre : List String → String
  | [] => ""
  | p :: ps => "\n" ++ p ++ nlPre ps

/-- The heading of a file section: the path in backticks. -/
def headingFor (path : String) : String := "\n## `" ++ path ++ "`\n"

/-- The fenced code block holding a filtered file body. -/
def codeBlockFor (body : String) : String := "\n```\n" ++ body ++ "\n```\n"

/-- The fixed notice used for every skipped file, whatever the reason. -/
def skipNotice : String :=
  "\n*Content skipped (binary, non-UTF8, or error fetching).*\n"

/-- The separator closing each section. -/
def sectionSep : String := "\n---\n"

/-- A file section as the spec describes it: heading, then a fenced code
block with the filtered body for fetched text (or the fixed skip notice
instead of a code block), then the separator. -/
def renderSection (w : World) (f : FileEntry) : String :=
  headingFor f.path ++
    (match get_file_content (w.blobResp f.url) with
     | some content => codeBlockFor (filterBlankLines content)
     | none => skipNotice) ++
  sectionSep

/-! ## Concrete worlds used to instantiate the theorems -/

/-- Bytes of the text `hello\n\nworld`. -/
def helloBytes : List Nat :=
  [104, 101, 108, 108, 111, 10, 10, 119, 111, 114, 108, 100]

/-- A world with one text blob, one non-UTF-8 blob and one directory node. -/
def wDemo : World :=
  { metadata := some ⟨some "main"⟩,
    treeResp := some ⟨false, [⟨"blob", "a.txt", "u1"⟩, ⟨"blob", "bin.dat", "u2"⟩,
      ⟨"tree", "dir", "u3"⟩]⟩,
    blobResp := fun u =>
      if u = "u1" then .ok "base64" helloBytes
      else if u = "u2" then .ok "base64" [255]
      else .err }

/-- A world whose tree listing succeeds but holds no blob entries. -/
def wEmptyTree : World :=
  { metadata := some ⟨some "main"⟩,
    treeResp := some ⟨false, [⟨"tree", "dir", "u3"⟩]⟩,
    blobResp := fun _ => .err }

/-- A world whose tree listing call fails. -/
def wNoTree : World :=
  { metadata := some ⟨some "main"⟩,
    treeResp := none,
    blobResp := fun _ => .err }

/-- A world whose metadata call succeeds with a present-but-empty
`default_branch` field. -/
def wEmptyBranch : World :=
  { metadata := some ⟨some ""⟩,
    treeResp := some ⟨false, [⟨"blob", "a.txt", "u1"⟩]⟩,
    blobResp := fun _ => .ok "base64" helloBytes }

/-- A world whose single blob decodes to a text of only blank lines. -/
def wBlank : World :=
  { metadata := some ⟨some "main"⟩,
    treeResp := some ⟨false, [⟨"blob", "a.txt", "u1"⟩]⟩,
    blobResp := fun _ => .ok "base64" [32, 32, 10, 9, 10] }

/-! ## Helper lemmas -/

theorem dropLit_self (p : List Char) : ∀ s, dropLit p (p ++ s) = some s := by
  induction p with
  | nil => intro s; rfl
  | cons c cs ih => intro s; simp [dropLit, ih]

theorem dropLit_https_of_http (r : List Char) :
    dropLit httpsHost (httpHost ++ r) = none := rfl

theorem dropLit_ssh_of_http (r : List Char) :
    dropLit sshHost (httpHost ++ r) = none := rfl

theorem dropLit_ssh_of_https (r : List Char) :
    dropLit sshHost (httpsHost ++ r) = none := rfl

theorem data_append_http (t : String) :
    ("http://github.com/" ++ t).data = httpHost ++ t.data := rfl

theorem data_append_https (t : String) :
    ("https://github.com/" ++ t).data = httpsHost ++ t.data := rfl

/-! ## Claim theorems for the URL parser -/

/-- Claim C7: `parse_github_url` maps each of the four supported URL
shapes for owner `o` and repository `r` to the pair `("o", "r")`, with the
`.git` suffix stripped where present. -/
theorem parse_supported_shapes :
    parse_github_url "https://github.com/o/r" = some ("o", "r") ∧
    parse_github_url "https://github.com/o/r.git" = some ("o", "r") ∧
    parse_github_url "https://github.com/o/r/tree/main" = some ("o", "r") ∧
    parse_github_url "git@github.com:o/r.git" = some ("o", "r") := by
  refine ⟨?_, ?_, ?_, ?_⟩ <;> decide

/-- Claim C8: when a URL matches neither the HTTPS pattern nor the SSH
pattern, `parse_github_url` fails, and `convert_repo` classifies the
request as a client input error without consulting the world of API
responses at all (no network access). -/
theorem parse_failure_is_bad_request (url : String)
    (h1 : matchHttps url.data = none) (h2 : matchSsh url.data = none) :
    parse_github_url url = none ∧
    ∀ w : World,
      convert_repo w url = .badRequest "Invalid GitHub repository URL format." := by
  have hp : parse_github_url url = none := by
    unfold parse_github_url
    rw [h1]
    simp [Option.orElse, h2]
  refine ⟨hp, fun w => ?_⟩
  unfold convert_repo
  rw [hp]

theorem parse_failure_is_bad_request_witness :
    parse_github_url "ftp://example.com/x" = none ∧
    convert_repo wDemo "ftp://example.com/x" =
      .badRequest "Invalid GitHub repository URL format." := by
  have h := parse_failure_is_bad_request "ftp://example.com/x" (by decide) (by decide)
  exact ⟨h.1, h.2 wDemo⟩

/-- Claim C9: the HTTPS pattern's scheme is `https?`, so a plain
`http://github.com/...` URL parses exactly as the corresponding
`https://github.com/...` URL does, for every tail. -/
theorem parse_http_like_https (t : String) :
    parse_github_url ("http://github.com/" ++ t) =
    parse_github_url ("https://github.com/" ++ t) := by
  unfold parse_github_url
  rw [data_append_http, data_append_https]
  unfold matchHttps matchSsh
  rw [dropLit_self, dropLit_https_of_http, dropLit_ssh_of_http, dropLit_ssh_of_https,
    dropLit_self]
  rfl

/-! ## Claim theorems for branch resolution -/

/-- Claim C2, counterexample: when the metadata call succeeds and the
`default_branch` field is present but empty, `get_default_branch` does
not return `"main"` — `dict.get` only falls back on an absent key — and
the caller maps the empty result to the not-found outcome even though the
API call itself succeeded. -/
theorem default_branch_empty_counterexample :
    get_default_branch (some ⟨some ""⟩) = some "" ∧
    get_default_branch (some ⟨some ""⟩) ≠ some "main" ∧
    convert_repo wEmptyBranch "https://github.com/o/r" =
      .notFound ("Could not determine default branch for o/r. Repo might be" ++
        " private, non-existent, or API error occurred.") := by
  refine ⟨rfl, by decide, by decide⟩

/-- Claim C2, amended: `get_default_branch` returns `"main"` only when
the field is absent from a successful response; when the field is present
it returns its value, even the empty string; it returns `none` exactly
when the API call failed; and the caller maps both a failed call and an
empty resolved value to the not-found outcome. -/
theorem default_branch_resolution (m : Metadata) :
    (m.default_branch = none → get_default_branch (some m) = some "main") ∧
    (∀ v, m.default_branch = some v → get_default_branch (some m) = some v) ∧
    get_default_branch none = none ∧
    (∀ (w : World) (url owner repo : String),
      parse_github_url url = some (owner, repo) →
      ¬(owner = "" ∨ repo = "") →
      get_default_branch w.metadata = some "" →
      convert_repo w url =
        .notFound ("Could not determine default branch for " ++ owner ++ "/"
          ++ repo ++ ". Repo might be private, non-existent, or API error occurred.")) := by
  refine ⟨?_, ?_, rfl, ?_⟩
  · intro h; simp [get_default_branch, h]
  · intro v h; simp [get_default_branch, h]
  · intro w url owner repo hp ho hb
    unfold convert_repo
    rw [hp]
    simp only [ho, if_false]
    rw [hb]
    rfl

theorem default_branch_resolution_witness :
    get_default_branch (some ⟨(none : Option String)⟩) = some "main" ∧
    convert_repo wEmptyBranch "https://github.com/o/r" =
      .notFound ("Could not determine default branch for o/r. Repo might be" ++
        " private, non-existent, or API error occurred.") := by
  refine ⟨(default_branch_resolution ⟨none⟩).1 rfl, ?_⟩
  exact (default_branch_resolution ⟨some ""⟩).2.2.2 wEmptyBranch
    "https://github.com/o/r" "o" "r" (by decide) (by decide) rfl

/-! ## Lemmas about line splitting and joining -/

theorem pySplit_nil : pySplitlines [] = [] := rfl

theorem pySplit_cr_nil : pySplitlines ['\r'] = [[]] := rfl

theorem pySplit_crlf (r2 : List Char) :
    pySplitlines ('\r' :: '\n' :: r2) = [] :: pySplitlines r2 := rfl

theorem pySplit_cr_other (c2 : Char) (r2 : List Char) (h : ¬c2 = '\n') :
    pySplitlines ('\r' :: c2 :: r2) = [] :: pySplitlines (c2 :: r2) := by
  rw [pySplitlines.eq_def]
  split
  · rename_i heq
    exact absurd heq (by simp)
  · rename_i c3 r3 heq
    injection heq with h1 h2
    subst h1
    subst h2
    simp [h, isLineBreak]

theorem pySplit_break (c : Char) (r : List Char)
    (hb : isLineBreak c = true) (hc : ¬c = '\r') :
    pySplitlines (c :: r) = [] :: pySplitlines r := by
  rw [pySplitlines.eq_def]
  split
  · rename_i heq
    exact absurd heq (by simp)
  · rename_i c2 r2 heq
    injection heq with h1 h2
    subst h1
    subst h2
    simp [hb, hc]

theorem pySplit_nobreak (c : Char) (r : List Char) (hb : isLineBreak c = false) :
    pySplitlines (c :: r) =
      match pySplitlines r with
      | [] => [[c]]
      | l :: ls => (c :: l) :: ls := by
  rw [pySplitlines.eq_def]
  split
  · rename_i heq
    exact absurd heq (by simp)
  · rename_i c2 r2 heq
    injection heq with h1 h2
    subst h1
    subst h2
    simp [hb]

theorem pySplitlines_breakFree :
    ∀ s, ∀ l ∈ pySplitlines s, ∀ c ∈ l, isLineBreak c = false := by
  intro s
  induction s using pySplitlines.induct with
  | case1 => simp [pySplit_nil]
  | case2 h => simp [pySplit_cr_nil]
  | case3 r2 h ih =>
    intro l hl c' hc'
    rw [pySplit_crlf] at hl
    rcases List.mem_cons.mp hl with rfl | hl
    · simp at hc'
    · exact ih l hl c' hc'
  | case4 c2 r2 hne h ih =>
    intro l hl c' hc'
    rw [pySplit_cr_other c2 r2 hne] at hl
    rcases List.mem_cons.mp hl with rfl | hl
    · simp at hc'
    · exact ih l hl c' hc'
  | case5 c2 r2 hb hne ih =>
    intro l hl c' hc'
    rw [pySplit_break c2 r2 hb hne] at hl
    rcases List.mem_cons.mp hl with rfl | hl
    · simp at hc'
    · exact ih l hl c' hc'
  | case6 c2 r2 hb he ih =>
    intro l hl c' hc'
    rw [pySplit_nobreak c2 r2 (by simpa using hb), he] at hl
    rcases List.mem_cons.mp hl with rfl | hl
    · rcases List.mem_singleton.mp hc' with rfl
      simpa using hb
    · simp at hl
  | case7 c2 r2 hb l0 ls0 he ih =>
    intro l hl c' hc'
    rw [pySplit_nobreak c2 r2 (by simpa using hb), he] at hl
    rcases List.mem_cons.mp hl with rfl | hl
    · rcases List.mem_cons.mp hc' with rfl | hc'
      · simpa using hb
      · exact ih l0 (by rw [he]; exact List.mem_cons_self _ _) c' hc'
    · exact ih l (by rw [he]; exact List.mem_cons_of_mem _ hl) c' hc'

theorem pySplitlines_single (a : List Char) :
    a ≠ [] → (∀ c ∈ a, isLineBreak c = false) → pySplitlines a = [a] := by
  induction a with
  | nil => intro h; exact absurd rfl h
  | cons c rest ih =>
    intro _ hbf
    have hc : isLineBreak c = false := hbf c (by simp)
    rw [pySplit_nobreak c rest hc]
    cases rest with
    | nil => simp [pySplit_nil]
    | cons c2 r2 =>
      rw [ih (by simp) (fun x hx => hbf x (by simp [hx]))]

theorem pySplitlines_append_nl (a : List Char) (u : List Char) :
    (∀ c ∈ a, isLineBreak c = false) →
    pySplitlines (a ++ '\n' :: u) = a :: pySplitlines u := by
  induction a with
  | nil =>
    intro _
    simp only [List.nil_append]
    exact pySplit_break '\n' u rfl (by decide)
  | cons c rest ih =>
    intro hbf
    have hc : isLineBreak c = false := hbf c (by simp)
    simp only [List.cons_append]
    rw [pySplit_nobreak c _ hc]
    rw [ih (fun x hx => hbf x (by simp [hx]))]

theorem pySplitlines_joinNL (lines : List (List Char)) :
    (∀ l ∈ lines, l ≠ [] ∧ ∀ c ∈ l, isLineBreak c = false) →
    pySplitlines (joinNL lines) = lines := by
  induction lines with
  | nil => intro _; rfl
  | cons a ls ih =>
    intro h
    cases ls with
    | nil =>
      show pySplitlines a = [a]
      exact pySplitlines_single a (h a (by simp)).1 (h a (by simp)).2
    | cons b ls2 =>
      show pySplitlines (a ++ '\n' :: joinNL (b :: ls2)) = a :: b :: ls2
      rw [pySplitlines_append_nl a _ (h a (by simp)).2]
      rw [ih (fun l hl => h l (by simp [hl]))]

theorem pyStrip_nil : pyStrip [] = [] := rfl

/-! ## Claim theorem for blank-line filtering -/

/-- Claim C3: the body of a text section is obtained by splitting the
content into lines, dropping every line whose stripped form is empty and
rejoining with newline — splitting the result again returns exactly the
surviving input lines, unchanged and in order, so no other transformation
happens — and on the content `"a\n\n  \nb\n"` the result is `"a\nb"`. -/
theorem blank_line_filtering :
    filterBlankLines "a\n\n  \nb\n" = "a\nb" ∧
    (∀ content : String,
      (filterBlankLines content).data =
        joinNL ((pySplitlines content.data).filter (fun l => pyStrip l ≠ []))) ∧
    ∀ content : String,
      pySplitlines (filterBlankLines content).data =
        (pySplitlines content.data).filter (fun l => pyStrip l ≠ []) := by
  refine ⟨by decide, fun content => rfl, fun content => ?_⟩
  show pySplitlines (joinNL _) = _
  apply pySplitlines_joinNL
  intro l hl
  rw [List.mem_filter] at hl
  refine ⟨?_, fun c hc => pySplitlines_breakFree content.data l hl.1 c hc⟩
  intro hnil
  subst hnil
  simpa [pyStrip_nil] using hl.2

/-! ## Lemmas about joining pieces into the document -/

theorem nlPre_cons (p : String) (ps : List String) :
    nlPre (p :: ps) = "\n" ++ p ++ nlPre ps := by
  rw [nlPre.eq_def]

theorem sJoin_cons (s : String) (ss : List String) :
    sJoin (s :: ss) = s ++ sJoin ss := by
  rw [sJoin.eq_def]

theorem pyJoin_single (sep x : String) : pyJoin sep [x] = x := by
  rw [pyJoin.eq_def]

theorem pyJoin_cons_cons (sep x y : String) (ys : List String) :
    pyJoin sep (x :: y :: ys) = x ++ sep ++ pyJoin sep (y :: ys) := by
  rw [pyJoin.eq_def]

theorem nlPre_append (a b : List String) :
    nlPre (a ++ b) = nlPre a ++ nlPre b := by
  induction a with
  | nil => rfl
  | cons p ps ih =>
    simp only [List.cons_append, nlPre_cons, ih, String.append_assoc]

theorem pyJoin_nl (x : String) (xs : List String) :
    pyJoin "\n" (x :: xs) = x ++ nlPre xs := by
  induction xs generalizing x with
  | nil => rw [pyJoin_single, nlPre.eq_def, String.append_empty]
  | cons y ys ih =>
    rw [pyJoin_cons_cons, ih y, nlPre_cons]
    simp only [String.append_assoc]

theorem nlPre_textPieces (p b : String) :
    nlPre (textPieces p b) = headingFor p ++ codeBlockFor b ++ sectionSep := by
  have m1 : ∀ x : String, "\n" ++ ("## `" ++ x) = "\n## `" ++ x := fun x => by
    rw [← String.append_assoc]; rfl
  have m2 : ∀ x : String, "\n" ++ ("```" ++ ("\n" ++ x)) = "\n```\n" ++ x := fun x => by
    rw [← String.append_assoc, ← String.append_assoc]; rfl
  have m3 : ∀ x : String, "\n" ++ ("```\n" ++ x) = "\n```\n" ++ x := fun x => by
    rw [← String.append_assoc]; rfl
  have m4 : ("\n" : String) ++ "---\n" = "\n---\n" := rfl
  simp only [textPieces, nlPre_cons, nlPre.eq_def, headingFor, codeBlockFor, sectionSep,
    String.append_assoc, String.append_empty, m1, m2, m3, m4]

theorem nlPre_skipPieces (p : String) :
    nlPre (skipPieces p) = headingFor p ++ skipNotice ++ sectionSep := by
  have m1 : ∀ x : String, "\n" ++ ("## `" ++ x) = "\n## `" ++ x := fun x => by
    rw [← String.append_assoc]; rfl
  have m5 : ∀ x : String,
      "\n" ++ ("*Content skipped (binary, non-UTF8, or error fetching).*\n" ++ x) =
      "\n*Content skipped (binary, non-UTF8, or error fetching).*\n" ++ x := fun x => by
    rw [← String.append_assoc]; rfl
  have m4 : ("\n" : String) ++ "---\n" = "\n---\n" := rfl
  simp only [skipPieces, nlPre_cons, nlPre.eq_def, headingFor, skipNotice, sectionSep,
    String.append_assoc, String.append_empty, m1, m5, m4]

/-! ## Lemmas about the per-file loop -/

theorem convertLoop_cons_some (w : World) (f : FileEntry) (fs : List FileEntry)
    (content : String) (h : get_file_content (w.blobResp f.url) = some content) :
    convertLoop w (f :: fs) =
      (textPieces f.path (filterBlankLines content) ++ (convertLoop w fs).1,
       (convertLoop w fs).2.1 + 1, (convertLoop w fs).2.2) := by
  rw [convertLoop.eq_def]
  simp only [h]

theorem convertLoop_cons_none (w : World) (f : FileEntry) (fs : List FileEntry)
    (h : get_file_content (w.blobResp f.url) = none) :
    convertLoop w (f :: fs) =
      (skipPieces f.path ++ (convertLoop w fs).1,
       (convertLoop w fs).2.1, (convertLoop w fs).2.2 + 1) := by
  rw [convertLoop.eq_def]
  simp only [h]

theorem convertLoop_counts (w : World) :
    ∀ files : List FileEntry,
      (convertLoop w files).2.1 + (convertLoop w files).2.2 = files.length := by
  intro files
  induction files with
  | nil => rfl
  | cons f fs ih =>
    cases h : get_file_content (w.blobResp f.url) with
    | none => rw [convertLoop_cons_none w f fs h]; simp; omega
    | some content => rw [convertLoop_cons_some w f fs content h]; simp; omega

theorem nlPre_convertLoop (w : World) :
    ∀ files : List FileEntry,
      nlPre (convertLoop w files).1 = sJoin (files.map (renderSection w)) := by
  intro files
  induction files with
  | nil => rfl
  | cons f fs ih =>
    cases h : get_file_content (w.blobResp f.url) with
    | none =>
      rw [convertLoop_cons_none w f fs h, nlPre_append, nlPre_skipPieces, ih,
        List.map_cons, sJoin_cons]
      simp only [renderSection, h]
    | some content =>
      rw [convertLoop_cons_some w f fs content h, nlPre_append, nlPre_textPieces, ih,
        List.map_cons, sJoin_cons]
      simp only [renderSection, h]

theorem convertLoop_blobResp (w w' : World) (hb : w.blobResp = w'.blobResp) :
    ∀ files, convertLoop w files = convertLoop w' files := by
  intro files
  induction files with
  | nil => rfl
  | cons f fs ih =>
    cases h : get_file_content (w'.blobResp f.url) with
    | none =>
      rw [convertLoop_cons_none w' f fs h,
        convertLoop_cons_none w f fs (by rw [hb]; exact h), ih]
    | some c =>
      rw [convertLoop_cons_some w' f fs c h,
        convertLoop_cons_some w f fs c (by rw [hb]; exact h), ih]

theorem convert_repo_congr (w w' : World) (url : String)
    (hm : w.metadata = w'.metadata)
    (hf : get_repo_files w.treeResp = get_repo_files w'.treeResp)
    (hb : w.blobResp = w'.blobResp) :
    convert_repo w url = convert_repo w' url := by
  unfold convert_repo
  rw [hm, hf]
  simp only [convertLoop_blobResp w w' hb]

/-! ## Claim theorems for the assembled document and the pipeline -/

/-- Claim C1: every successful conversion produces the title line naming
`owner/repo`, followed by one section per file entry in tree-listing
order, each section being the backticked-path heading, then a fenced code
block with the filtered body for fetched text or the fixed skip notice
for skipped content, then the `---` separator. -/
theorem conversion_document_structure (w : World) (url owner repo branch : String)
    (files : List FileEntry)
    (hp : parse_github_url url = some (owner, repo))
    (ho : ¬(owner = "" ∨ repo = ""))
    (hb : get_default_branch w.metadata = some branch) (hbne : ¬branch = "")
    (hf : get_repo_files w.treeResp = some files) (hne : ¬files = []) :
    ∃ p s, convert_repo w url =
      .ok ("# Codebase for " ++ owner ++ "/" ++ repo ++ "\n\n" ++
        sJoin (files.map (renderSection w))) p s := by
  refine ⟨(convertLoop w files).2.1, (convertLoop w files).2.2, ?_⟩
  unfold convert_repo
  rw [hp]
  simp only [ho, if_false]
  rw [hb]
  simp only [hbne, if_false]
  rw [hf]
  simp only [hne, if_false]
  have hdoc : pyJoin "\n" (titlePiece owner repo :: (convertLoop w files).1) =
      "# Codebase for " ++ owner ++ "/" ++ repo ++ "\n\n" ++
        sJoin (files.map (renderSection w)) := by
    rw [pyJoin_nl, nlPre_convertLoop w files, titlePiece]
  show ConvertResult.ok (pyJoin "\n" (titlePiece owner repo ::
    (convertLoop w files).1)) (convertLoop w files).2.1 (convertLoop w files).2.2 = _
  rw [hdoc]

theorem conversion_document_structure_witness :
    ∃ p s, convert_repo wDemo "https://github.com/o/r" =
      .ok ("# Codebase for " ++ "o" ++ "/" ++ "r" ++ "\n\n" ++
        sJoin (([⟨"a.txt", "u1"⟩, ⟨"bin.dat", "u2"⟩] : List FileEntry).map
          (renderSection wDemo))) p s :=
  conversion_document_structure wDemo "https://github.com/o/r" "o" "r" "main"
    [⟨"a.txt", "u1"⟩, ⟨"bin.dat", "u2"⟩] (by decide) (by decide) rfl (by decide)
    rfl (by decide)

/-- Claim C4: `get_file_content` absorbs every per-file failure into a
returned value — `none` for a non-base64 declared encoding, `none` when
strict UTF-8 decoding fails, `none` on a failed request — the loop turns
every such `none` into the fixed skip pieces while still processing the
remaining files and bumping only the skipped tally, and the rendered
section body is the one fixed notice whatever the skip reason was. -/
theorem content_fetch_never_fatal :
    (∀ encoding bytes, ¬encoding = "base64" →
      get_file_content (.ok encoding bytes) = none) ∧
    (∀ bytes, utf8Decode bytes = none →
      get_file_content (.ok "base64" bytes) = none) ∧
    get_file_content .err = none ∧
    (∀ (w : World) (f : FileEntry) (fs : List FileEntry),
      get_file_content (w.blobResp f.url) = none →
      convertLoop w (f :: fs) =
        (skipPieces f.path ++ (convertLoop w fs).1,
         (convertLoop w fs).2.1, (convertLoop w fs).2.2 + 1)) ∧
    (∀ (w : World) (f : FileEntry),
      get_file_content (w.blobResp f.url) = none →
      renderSection w f = headingFor f.path ++ skipNotice ++ sectionSep) := by
  refine ⟨?_, ?_, rfl, ?_, ?_⟩
  · intro encoding bytes h
    simp [get_file_content, h]
  · intro bytes h
    simp [get_file_content, h]
  · intro w f fs h
    exact convertLoop_cons_none w f fs h
  · intro w f h
    simp only [renderSection, h]

theorem content_fetch_never_fatal_witness :
    get_file_content (.ok "utf-8" helloBytes) = none ∧
    get_file_content (.ok "base64" [255]) = none ∧
    convertLoop wDemo [⟨"bin.dat", "u2"⟩] =
      (skipPieces "bin.dat" ++ (convertLoop wDemo []).1,
       (convertLoop wDemo []).2.1, (convertLoop wDemo []).2.2 + 1) ∧
    renderSection wDemo ⟨"bin.dat", "u2"⟩ =
      headingFor "bin.dat" ++ skipNotice ++ sectionSep := by
  refine ⟨content_fetch_never_fatal.1 "utf-8" helloBytes (by decide),
    content_fetch_never_fatal.2.1 [255] (by decide),
    content_fetch_never_fatal.2.2.2.1 wDemo ⟨"bin.dat", "u2"⟩ [] (by decide),
    content_fetch_never_fatal.2.2.2.2 wDemo ⟨"bin.dat", "u2"⟩ (by decide)⟩

/-- Claim C5: whenever the conversion reaches the per-file loop, the
processed and skipped tallies sum to the number of listed file entries,
and the `truncated` flag of the tree response has no effect on the
result — a truncated listing still yields a successful document built
from exactly the returned entries. -/
theorem tally_and_truncation (w : World) (url owner repo branch : String)
    (resp : TreeResponse) (files : List FileEntry)
    (hp : parse_github_url url = some (owner, repo))
    (ho : ¬(owner = "" ∨ repo = ""))
    (hb : get_default_branch w.metadata = some branch) (hbne : ¬branch = "")
    (ht : w.treeResp = some resp)
    (hf : get_repo_files (some resp) = some files) (hne : ¬files = []) :
    (∃ doc, convert_repo w url =
        .ok doc (convertLoop w files).2.1 (convertLoop w files).2.2 ∧
      (convertLoop w files).2.1 + (convertLoop w files).2.2 = files.length) ∧
    convert_repo { w with treeResp := some ⟨true, resp.tree⟩ } url =
      convert_repo { w with treeResp := some ⟨false, resp.tree⟩ } url := by
  constructor
  · refine ⟨pyJoin "\n" (titlePiece owner repo :: (convertLoop w files).1), ?_,
      convertLoop_counts w files⟩
    unfold convert_repo
    rw [hp]
    simp only [ho, if_false]
    rw [hb]
    simp only [hbne, if_false]
    rw [ht, hf]
    simp only [hne, if_false]
  · exact convert_repo_congr _ _ url rfl rfl rfl

theorem tally_and_truncation_witness :
    (∃ doc, convert_repo { wDemo with treeResp := some ⟨true, [⟨"blob", "a.txt", "u1"⟩,
        ⟨"blob", "bin.dat", "u2"⟩, ⟨"tree", "dir", "u3"⟩]⟩ } "https://github.com/o/r" =
      .ok doc
        (convertLoop { wDemo with treeResp := some ⟨true, [⟨"blob", "a.txt", "u1"⟩,
          ⟨"blob", "bin.dat", "u2"⟩, ⟨"tree", "dir", "u3"⟩]⟩ }
          [⟨"a.txt", "u1"⟩, ⟨"bin.dat", "u2"⟩]).2.1
        (convertLoop { wDemo with treeResp := some ⟨true, [⟨"blob", "a.txt", "u1"⟩,
          ⟨"blob", "bin.dat", "u2"⟩, ⟨"tree", "dir", "u3"⟩]⟩ }
          [⟨"a.txt", "u1"⟩, ⟨"bin.dat", "u2"⟩]).2.2 ∧
      (convertLoop { wDemo with treeResp := some ⟨true, [⟨"blob", "a.txt", "u1"⟩,
          ⟨"blob", "bin.dat", "u2"⟩, ⟨"tree", "dir", "u3"⟩]⟩ }
          [⟨"a.txt", "u1"⟩, ⟨"bin.dat", "u2"⟩]).2.1 +
        (convertLoop { wDemo with treeResp := some ⟨true, [⟨"blob", "a.txt", "u1"⟩,
          ⟨"blob", "bin.dat", "u2"⟩, ⟨"tree", "dir", "u3"⟩]⟩ }
          [⟨"a.txt", "u1"⟩, ⟨"bin.dat", "u2"⟩]).2.2 =
        ([⟨"a.txt", "u1"⟩, ⟨"bin.dat", "u2"⟩] : List FileEntry).length) ∧
    convert_repo { wDemo with treeResp := some ⟨true, [⟨"blob", "a.txt", "u1"⟩,
        ⟨"blob", "bin.dat", "u2"⟩, ⟨"tree", "dir", "u3"⟩]⟩ } "https://github.com/o/r" =
      convert_repo { wDemo with treeResp := some ⟨false, [⟨"blob", "a.txt", "u1"⟩,
        ⟨"blob", "bin.dat", "u2"⟩, ⟨"tree", "dir", "u3"⟩]⟩ } "https://github.com/o/r" :=
  tally_and_truncation _ "https://github.com/o/r" "o" "r" "main"
    ⟨true, [⟨"blob", "a.txt", "u1"⟩, ⟨"blob", "bin.dat", "u2"⟩, ⟨"tree", "dir", "u3"⟩]⟩
    [⟨"a.txt", "u1"⟩, ⟨"bin.dat", "u2"⟩] (by decide) (by decide) rfl (by decide)
    rfl rfl (by decide)

/-- Claim C6: with the URL parsed and the branch resolved, a failed tree
call yields the server-error outcome, while a successful tree call with
zero blob entries yields the not-found (empty repository) outcome, and
the two outcomes are distinct constructors of the result type. -/
theorem empty_tree_vs_fetch_error (w : World) (url owner repo branch : String)
    (hp : parse_github_url url = some (owner, repo))
    (ho : ¬(owner = "" ∨ repo = ""))
    (hb : get_default_branch w.metadata = some branch) (hbne : ¬branch = "") :
    (w.treeResp = none →
      convert_repo w url = .serverError ("Could not fetch file list for " ++ owner
        ++ "/" ++ repo ++ ". Check permissions or API rate limits.")) ∧
    (∀ resp : TreeResponse, w.treeResp = some resp →
      resp.tree.filter (fun item => item.type = "blob") = [] →
      convert_repo w url = .notFound ("Repository " ++ owner ++ "/" ++ repo
        ++ " appears to be empty or no files found.")) ∧
    (∀ m1 m2 : String, ConvertResult.serverError m1 ≠ ConvertResult.notFound m2) := by
  refine ⟨?_, ?_, fun m1 m2 h => by cases h⟩
  · intro ht
    unfold convert_repo
    rw [hp]
    simp only [ho, if_false]
    rw [hb]
    simp only [hbne, if_false]
    rw [ht]
    rfl
  · intro resp ht hblob
    unfold convert_repo
    rw [hp]
    simp only [ho, if_false]
    rw [hb]
    simp only [hbne, if_false]
    rw [ht]
    have hfiles : get_repo_files (some resp) = some [] := by
      simp [get_repo_files, hblob]
    rw [hfiles]
    rfl

theorem empty_tree_vs_fetch_error_witness :
    convert_repo wNoTree "https://github.com/o/r" =
      .serverError ("Could not fetch file list for o" ++ "/" ++ "r"
        ++ ". Check permissions or API rate limits.") ∧
    convert_repo wEmptyTree "https://github.com/o/r" =
      .notFound ("Repository o" ++ "/" ++ "r"
        ++ " appears to be empty or no files found.") := by
  constructor
  · exact (empty_tree_vs_fetch_error wNoTree "https://github.com/o/r" "o" "r" "main"
      (by decide) (by decide) rfl (by decide)).1 rfl
  · exact (empty_tree_vs_fetch_error wEmptyTree "https://github.com/o/r" "o" "r" "main"
      (by decide) (by decide) rfl (by decide)).2.1 ⟨false, [⟨"tree", "dir", "u3"⟩]⟩
      rfl (by decide)

/-- Claim C10: a fetched file whose decoded content is empty or consists
only of blank lines filters to the empty body, is counted as processed
(not skipped), and its section holds a fenced code block around the empty
string. -/
theorem blank_content_is_processed (w : World) (f : FileEntry) (fs : List FileEntry)
    (content : String)
    (hc : get_file_content (w.blobResp f.url) = some content)
    (hblank : ∀ l ∈ pySplitlines content.data, pyStrip l = []) :
    filterBlankLines content = "" ∧
    convertLoop w (f :: fs) =
      (textPieces f.path "" ++ (convertLoop w fs).1,
       (convertLoop w fs).2.1 + 1, (convertLoop w fs).2.2) ∧
    renderSection w f = headingFor f.path ++ codeBlockFor "" ++ sectionSep := by
  have hnil : (pySplitlines content.data).filter (fun l => pyStrip l ≠ []) = [] := by
    rw [List.filter_eq_nil_iff]
    intro l hl
    simp [hblank l hl]
  have hempty : filterBlankLines content = "" := by
    rw [filterBlankLines, hnil]
    rfl
  refine ⟨hempty, ?_, ?_⟩
  · rw [convertLoop_cons_some w f fs content hc, hempty]
  · simp only [renderSection, hc, hempty]

theorem blank_content_is_processed_witness :
    filterBlankLines "  \n\t\n" = "" ∧
    convertLoop wBlank [⟨"a.txt", "u1"⟩] =
      (textPieces "a.txt" "" ++ (convertLoop wBlank []).1,
       (convertLoop wBlank []).2.1 + 1, (convertLoop wBlank []).2.2) ∧
    renderSection wBlank ⟨"a.txt", "u1"⟩ =
      headingFor "a.txt" ++ codeBlockFor "" ++ sectionSep := by
  exact blank_content_is_processed wBlank ⟨"a.txt", "u1"⟩ [] "  \n\t\n"
    (by decide) (by decide)

end App
